import Mathlib

/-! KeyDropTui: the asynchronous command layer and the registration view.

A shallow embedding of `api/client.go` (the five commands `RegisterUser`,
`AuthenticateUser`, `CreatePaste`, `GetPastes`, `GetPaste`) and of
`tui/views/register.go` (`RegisterModel.Update`).

Every command of `api/client.go` is a closure `func() tea.Msg` that talks to the
outside world (JSON encoding, the HTTP client, the `crypt` package).  The outside
world is a record `Env` of functions; a command is embedded as the message its
closure returns when it is run in a given `Env`.  An `error` value is embedded as
its message text (what `Error()` returns), so `fmt.Errorf("ctx: %w", err)` is the
string `"ctx: " ++ err`.
-/

namespace KeyDrop

/-! ## Data model (`api/types.go` is not among the sources) -/

/-- Modelled from the spec: `api.RegisterUserRequest`, declared in the absent
`api/types.go`; the source builds it from the single field `PublicKey`. -/
structure RegisterUserRequest where
  PublicKey : String
  deriving DecidableEq, Repr

/-- Modelled from the spec: `api.RegisterUserResponse`, declared in the absent
`api/types.go`; the source reads its field `ID` (`201 {userID}`). -/
structure RegisterUserResponse where
  ID : String
  deriving DecidableEq, Repr

/-- Modelled from the spec: `api.AuthRequest`, declared in the absent
`api/types.go`; the source reads `ID`, the spec gives the wire shape
`{id, ...signedChallenge}`. -/
structure AuthRequest where
  ID : String
  SignedChallenge : String
  deriving DecidableEq, Repr

/-- Modelled from the spec: `api.AuthResponse`, declared in the absent
`api/types.go` (`200 {sessionToken}`). -/
structure AuthResponse where
  Token : String
  deriving DecidableEq, Repr

/-- Modelled from the spec: `api.PasteRequest`, declared in the absent
`api/types.go` (`{ciphertext, ...}`). -/
structure PasteRequest where
  Ciphertext : String
  deriving DecidableEq, Repr

/-- Modelled from the spec: `api.CreatePasteResponse`, declared in the absent
`api/types.go` (`201 {id, ...}`). -/
structure CreatePasteResponse where
  ID : String
  deriving DecidableEq, Repr

/-- Modelled from the spec: `api.Paste`, declared in the absent `api/types.go`;
the source reads `ID` and `Ciphertext`, the spec gives the record
`(id, ciphertext, createdAt, expiresAt?)`. -/
structure Paste where
  ID : String
  Ciphertext : String
  CreatedAt : String
  ExpiresAt : Option String
  deriving DecidableEq, Repr

/-- Modelled from the spec: `api.User`, declared in the absent `api/types.go`;
the source reads its field `ID`. -/
structure User where
  ID : String
  deriving DecidableEq, Repr

/-- The struct `PasteCreatedMsg` of `api/client.go`: the caller's `TempID` next to
the embedded `CreatePasteResponse`. -/
structure PasteCreatedMsg where
  TempID : String
  CreatePasteResponse : CreatePasteResponse
  deriving DecidableEq, Repr

/-- A Go slice `[]α`, as the list of its elements. -/
abbrev Slice (α : Type) : Type := List α

/-- The values of `tea.Msg` that the two source files produce or inspect.
`ErrMsg` is `type ErrMsg error`, carried as the text of the error. `KeyMsg`
carries the result of `msg.String()`. `RegistrationErrorMsg` carries its field
`err`, `none` for `nil`. `Other` is any message the sources do not
name (a window resize, a cursor blink). -/
inductive Msg where
  | ErrMsg (text : String)
  | RegisterUserResponse (r : RegisterUserResponse)
  | AuthResponse (r : AuthResponse)
  | PasteCreatedMsg (m : PasteCreatedMsg)
  | PasteListFetchedMsg (List : Slice Paste) (Titles : Slice String)
  | PasteFetchedMsg (Paste : Paste)
  | KeyMsg (key : String)
  | RegistrationSuccessMsg (ID : String)
  | RegistrationErrorMsg (err : Option String)
  | Other (tag : Nat)
  deriving DecidableEq, Repr

/-- An `*http.Request` as far as the source builds it: method, URL, optional body
and the headers set with `Header.Set`. -/
structure Request where
  Method : String
  URL : String
  Body : Option String
  Header : List (String × String)
  deriving DecidableEq, Repr

/-- The outcome of `httpClient.Post` / `httpClient.Do`: either the error `err`, or
a response with its `StatusCode` and the bytes of its body. -/
inductive HttpResult where
  | failed (err : String)
  | response (StatusCode : Nat) (Body : String)
  deriving DecidableEq, Repr

/-- The outside world of `api/client.go`: the standard-library calls
(`json.Marshal`, `http.NewRequest`, `httpClient.Post`, `httpClient.Do`,
`json.NewDecoder(..).Decode`, `url.QueryEscape`, `json.Unmarshal` into
`struct{Title string}`) and `crypt.DecryptPaste`, whose package is not among the
sources. Each fallible call returns `Except` with the error text. -/
structure Env where
  marshalRegisterUserRequest : RegisterUserRequest → Except String String
  marshalAuthRequest : AuthRequest → Except String String
  marshalPasteRequest : PasteRequest → Except String String
  NewRequest : String → String → Option String → Except String Request
  Post : String → String → String → HttpResult
  Do : Request → HttpResult
  decodeRegisterUserResponse : String → Except String RegisterUserResponse
  decodeAuthResponse : String → Except String AuthResponse
  decodeCreatePasteResponse : String → Except String CreatePasteResponse
  decodePastes : String → Except String (List Paste)
  decodePaste : String → Except String Paste
  QueryEscape : String → String
  DecryptPaste : String → String → Except String String
  unmarshalTitle : String → Except String String

/-- The constant `backendURL`. -/
def backendURL : String := "http://localhost:8081"

/-- The method `Header.Set`: replace the value stored under `key`, or add it. -/
def Request.setHeader (req : Request) (key value : String) : Request :=
  { req with Header := (req.Header.filter fun kv => kv.1 != key) ++ [(key, value)] }

/-! ## `api/client.go` -/

/-- The command `RegisterUser(pubKeyB64)`, run in `env`. -/
def RegisterUser (env : Env) (pubKeyB64 : String) : Msg :=
  let reqBody : RegisterUserRequest := { PublicKey := pubKeyB64 }
  match env.marshalRegisterUserRequest reqBody with
  | .error err => .ErrMsg ("failed to marshal request: " ++ err)
  | .ok jsonBody =>
    match env.Post (backendURL ++ "/api/users") "application/json" jsonBody with
    | .failed _ => .ErrMsg "failed to make register User request"
    | .response StatusCode Body =>
      if StatusCode ≠ 201 then
        .ErrMsg ("register user request failed with status " ++ toString StatusCode
          ++ ": " ++ Body)
      else
        match env.decodeRegisterUserResponse Body with
        | .error err => .ErrMsg ("failed to decode register response: " ++ err)
        | .ok registerResp => .RegisterUserResponse registerResp

/-- The command `AuthenticateUser(reqBody)`, run in `env`. -/
def AuthenticateUser (env : Env) (reqBody : AuthRequest) : Msg :=
  match env.marshalAuthRequest reqBody with
  | .error err => .ErrMsg ("failed to marshal request: " ++ err)
  | .ok jsonBody =>
    match env.Post (backendURL ++ "/api/users/auth") "application/json" jsonBody with
    | .failed _ => .ErrMsg ("failed to authenticate user userID : " ++ reqBody.ID)
    | .response StatusCode Body =>
      if StatusCode ≠ 200 then
        .ErrMsg ("auth request failed with status " ++ toString StatusCode ++ ": " ++ Body)
      else
        match env.decodeAuthResponse Body with
        | .error err => .ErrMsg ("failed to decode auth response: " ++ err)
        | .ok authResponse => .AuthResponse authResponse

/-- The command `CreatePaste(reqBody, token, tempID)`, run in `env`. -/
def CreatePaste (env : Env) (reqBody : PasteRequest) (token tempID : String) : Msg :=
  match env.marshalPasteRequest reqBody with
  | .error err => .ErrMsg ("failed to marshal request: " ++ err)
  | .ok jsonBody =>
    match env.NewRequest "POST" (backendURL ++ "/api/pastes") (some jsonBody) with
    | .error _ => .ErrMsg "failed to generate create paste request"
    | .ok req0 =>
      let req := (req0.setHeader "Authorization" ("Bearer " ++ token)).setHeader
        "Content-Type" "application/json"
      match env.Do req with
      | .failed _ => .ErrMsg "failed to make create paste request"
      | .response StatusCode Body =>
        if StatusCode ≠ 201 then
          .ErrMsg ("create paste request failed with status " ++ toString StatusCode
            ++ ": " ++ Body)
        else
          match env.decodeCreatePasteResponse Body with
          | .error err => .ErrMsg ("failed to decode create paste response: " ++ err)
          | .ok pasteResponse =>
            .PasteCreatedMsg { TempID := tempID, CreatePasteResponse := pasteResponse }

/-- The body of the loop of `GetPastes` for the paste `pastes[i]`, of which it reads
`ID` and `Ciphertext`: the value stored in `titles[i]`. -/
def pasteTitle (env : Env) (ID Ciphertext : String) : String :=
  match env.DecryptPaste ID Ciphertext with
  | .error _ => "Error decrypting"
  | .ok plain =>
    match env.unmarshalTitle plain with
    | .error _ => "Invalid JSON"
    | .ok title => title

/-- The loop `for i := range pastes` of `GetPastes`, from index `i` on, over the
pastes not yet visited; it writes `titles[i]` at every step. -/
def titlesLoop (env : Env) : List Paste → Nat → List String → List String
  | [], _, titles => titles
  | p :: rest, i, titles => titlesLoop env rest (i + 1) (titles.set i (pasteTitle env p.ID p.Ciphertext))

/-- The slice `titles` of `GetPastes` after the loop: `make([]string, len(pastes))`
filled by the loop. -/
def pasteTitles (env : Env) (pastes : List Paste) : List String :=
  titlesLoop env pastes 0 (List.replicate pastes.length "")

/-- The command `GetPastes(publicKey)`, run in `env`. -/
def GetPastes (env : Env) (publicKey : String) : Msg :=
  match env.NewRequest "GET"
      (backendURL ++ "/api/pastes?public_key=" ++ env.QueryEscape publicKey) none with
  | .error err => .ErrMsg ("failed to create request: " ++ err)
  | .ok req =>
    match env.Do req with
    | .failed err => .ErrMsg ("failed to make request: " ++ err)
    | .response StatusCode Body =>
      if StatusCode ≠ 200 then
        .ErrMsg ("get pastes failed with status " ++ toString StatusCode ++ ": " ++ Body)
      else
        match env.decodePastes Body with
        | .error err => .ErrMsg ("failed to decode response: " ++ err)
        | .ok pastes => .PasteListFetchedMsg pastes (pasteTitles env pastes)

/-- The command `GetPaste(id)`, run in `env`. -/
def GetPaste (env : Env) (id : String) : Msg :=
  match env.NewRequest "GET" (backendURL ++ "/api/pastes/" ++ id) none with
  | .error err => .ErrMsg ("failed to create request: " ++ err)
  | .ok req =>
    match env.Do req with
    | .failed err => .ErrMsg ("failed to make request: " ++ err)
    | .response StatusCode Body =>
      if StatusCode ≠ 200 then
        if StatusCode = 400 then .ErrMsg "invalid paste ID"
        else if StatusCode = 404 then .ErrMsg "Paste not found"
        else if StatusCode = 410 then .ErrMsg "Paste has expired"
        else .ErrMsg "Internal server error"
      else
        match env.decodePaste Body with
        | .error err => .ErrMsg ("failed to decode response: " ++ err)
        | .ok paste => .PasteFetchedMsg paste

/-- The text `sub` occurs in the text `msg` (as a contiguous run of characters). -/
def Contains (msg sub : String) : Prop := sub.data <:+: msg.data

instance (msg sub : String) : Decidable (Contains msg sub) := by
  unfold Contains; infer_instance

/-! ## A concrete outside world, for evaluating the commands on examples -/

/-- A JSON value, as `encoding/json` scans it. A number keeps its text. -/
inductive JSON where
  | null
  | bool (b : Bool)
  | num (text : String)
  | str (s : String)
  | arr (elems : List JSON)
  | obj (members : List (String × JSON))

/-- Skip JSON white space (space, tab, line feed, carriage return). -/
def skipWs : List Char → List Char
  | [] => []
  | c :: cs => if c = ' ' ∨ c = '\t' ∨ c = '\n' ∨ c = '\r' then skipWs cs else c :: cs

/-- The value of a hexadecimal digit. -/
def hexVal (c : Char) : Option Nat :=
  if '0' ≤ c ∧ c ≤ '9' then some (c.toNat - '0'.toNat)
  else if 'a' ≤ c ∧ c ≤ 'f' then some (c.toNat - 'a'.toNat + 10)
  else if 'A' ≤ c ∧ c ≤ 'F' then some (c.toNat - 'A'.toNat + 10)
  else none

/-- The character written by a one-letter escape inside a JSON string. -/
def unescape (c : Char) : Option Char :=
  if c = '"' then some '"'
  else if c = '\\' then some '\\'
  else if c = '/' then some '/'
  else if c = 'b' then some (Char.ofNat 8)
  else if c = 'f' then some (Char.ofNat 12)
  else if c = 'n' then some '\n'
  else if c = 'r' then some '\r'
  else if c = 't' then some '\t'
  else none

/-- The code unit written by four hexadecimal digits. -/
def hex4 (a b c d : Char) : Option Nat :=
  match hexVal a, hexVal b, hexVal c, hexVal d with
  | some x, some y, some z, some w => some (((x * 16 + y) * 16 + z) * 16 + w)
  | _, _, _, _ => none

/-- The low surrogate written by a `u` escape at the head of the input, if there is
one. -/
def lowSurrogate : List Char → Option Nat
  | '\\' :: 'u' :: a :: b :: c :: d :: _ =>
    match hex4 a b c d with
    | some n => if 0xDC00 ≤ n ∧ n ≤ 0xDFFF then some n else none
    | none => none
  | _ => none

/-- Scan a JSON string after its opening quote: the decoded text and the input left
after the closing quote. A `u` escape that writes a high surrogate followed by one
that writes a low surrogate is the character of the pair; any other surrogate
becomes U+FFFD; a raw control character is a syntax error. -/
def parseStringBody : Nat → List Char → List Char → Option (String × List Char)
  | 0, _, _ => none
  | _ + 1, [], _ => none
  | fuel + 1, c :: rest, acc =>
    if c = '"' then some (String.mk acc.reverse, rest)
    else if c = '\\' then
      match rest with
      | 'u' :: a :: b :: c :: d :: rest' =>
        match hex4 a b c d with
        | some n =>
          if 0xD800 ≤ n ∧ n ≤ 0xDFFF then
            match (if n ≤ 0xDBFF then lowSurrogate rest' else none) with
            | some low =>
              parseStringBody fuel (rest'.drop 6)
                (Char.ofNat (0x10000 + (n - 0xD800) * 0x400 + (low - 0xDC00)) :: acc)
            | none => parseStringBody fuel rest' (Char.ofNat 0xFFFD :: acc)
          else parseStringBody fuel rest' (Char.ofNat n :: acc)
        | none => none
      | e :: rest' =>
        match unescape e with
        | some ch => parseStringBody fuel rest' (ch :: acc)
        | none => none
      | [] => none
    else if c.toNat < 32 then none
    else parseStringBody fuel rest (c :: acc)

/-- Split off the leading run of decimal digits. -/
def takeDigits : List Char → List Char × List Char
  | [] => ([], [])
  | c :: cs =>
    if c.isDigit then ((takeDigits cs).1.cons c, (takeDigits cs).2) else ([], c :: cs)

/-- Scan a JSON number: sign, integer part without a leading zero, optional
fraction, optional exponent. -/
def parseNumber (cs : List Char) : Option (String × List Char) :=
  let (sign, r0) := match cs with
    | '-' :: r => (['-'], r)
    | _ => ([], cs)
  let (int, r1) := takeDigits r0
  if int = [] ∨ (int.head? = some '0' ∧ 1 < int.length) then none
  else
    let fracPart : Option (List Char × List Char) := match r1 with
      | '.' :: r =>
        let (f, r2) := takeDigits r
        if f = [] then none else some ('.' :: f, r2)
      | _ => some ([], r1)
    match fracPart with
    | none => none
    | some (frac, r2) =>
      let expPart : Option (List Char × List Char) := match r2 with
        | e :: r =>
          if e = 'e' ∨ e = 'E' then
            let (s, r3) := match r with
              | '+' :: r' => (['+'], r')
              | '-' :: r' => (['-'], r')
              | _ => ([], r)
            let (ds, r4) := takeDigits r3
            if ds = [] then none else some (e :: s ++ ds, r4)
          else some ([], r2)
        | [] => some ([], r2)
      match expPart with
      | none => none
      | some (ex, r3) => some (String.mk (sign ++ int ++ frac ++ ex), r3)

/-- The constant `maxNestingDepth` of the scanner of `encoding/json`: an array or
object nested deeper is an error. -/
def maxNestingDepth : Nat := 10000

/-! The three scanners below recurse on a fuel argument. A call passes one unit less
to the calls it makes, and at most two nested calls happen without a character being
consumed, so `parseJSON` supplies two units per character of the input. The second
argument is the number of arrays and objects open around the input. -/

mutual
/-- Scan one JSON value. -/
def parseValue : Nat → Nat → List Char → Option (JSON × List Char)
  | 0, _, _ => none
  | fuel + 1, depth, cs =>
    match skipWs cs with
    | [] => none
    | c :: rest =>
      if c = '\x7b' then
        if maxNestingDepth < depth + 1 then none
        else
          match skipWs rest with
          | [] => none
          | d :: rest' =>
            if d = '\x7d' then some (.obj [], rest')
            else parseMembers fuel (depth + 1) (d :: rest') []
      else if c = '[' then
        if maxNestingDepth < depth + 1 then none
        else
          match skipWs rest with
          | [] => none
          | d :: rest' =>
            if d = ']' then some (.arr [], rest')
            else parseElements fuel (depth + 1) (d :: rest') []
      else if c = '"' then
        match parseStringBody (rest.length + 1) rest [] with
        | some (s, r) => some (.str s, r)
        | none => none
      else if c = 't' then
        match rest with
        | 'r' :: 'u' :: 'e' :: r => some (.bool true, r)
        | _ => none
      else if c = 'f' then
        match rest with
        | 'a' :: 'l' :: 's' :: 'e' :: r => some (.bool false, r)
        | _ => none
      else if c = 'n' then
        match rest with
        | 'u' :: 'l' :: 'l' :: r => some (.null, r)
        | _ => none
      else
        match parseNumber (c :: rest) with
        | some (t, r) => some (.num t, r)
        | none => none
/-- Scan the members of a JSON object after its opening brace. -/
def parseMembers :
    Nat → Nat → List Char → List (String × JSON) → Option (JSON × List Char)
  | 0, _, _, _ => none
  | fuel + 1, depth, cs, acc =>
    match skipWs cs with
    | [] => none
    | q :: rest =>
      if q = '"' then
        match parseStringBody (rest.length + 1) rest [] with
        | none => none
        | some (k, r1) =>
          match skipWs r1 with
          | [] => none
          | colon :: r2 =>
            if colon = ':' then
              match parseValue fuel depth r2 with
              | none => none
              | some (v, r3) =>
                match skipWs r3 with
                | [] => none
                | sep :: r4 =>
                  if sep = ',' then parseMembers fuel depth r4 (acc ++ [(k, v)])
                  else if sep = '\x7d' then some (.obj (acc ++ [(k, v)]), r4)
                  else none
            else none
      else none
/-- Scan the elements of a JSON array after its opening bracket. -/
def parseElements : Nat → Nat → List Char → List JSON → Option (JSON × List Char)
  | 0, _, _, _ => none
  | fuel + 1, depth, cs, acc =>
    match parseValue fuel depth cs with
    | none => none
    | some (v, r1) =>
      match skipWs r1 with
      | [] => none
      | sep :: r2 =>
        if sep = ',' then parseElements fuel depth r2 (acc ++ [v])
        else if sep = ']' then some (.arr (acc ++ [v]), r2)
        else none
end

/-- Scan the whole text as one JSON value with white space around it; `none` is a
syntax error. -/
def parseJSON (s : String) : Option JSON :=
  match parseValue (2 * s.length + 2) 0 s.data with
  | none => none
  | some (v, rest) => if skipWs rest = [] then some v else none

/-- Case folding of one character of a key: an ASCII letter goes to lower case, and
the two characters beyond ASCII that fold to an ASCII letter, the Kelvin sign U+212A
and the long s U+017F, go to `k` and `s`. -/
def foldChar (c : Char) : Char :=
  if c = Char.ofNat 0x212A then 'k'
  else if c = Char.ofNat 0x17F then 's'
  else c.toLower

/-- Case folding of a key, the way `encoding/json` compares a key that is not
spelled exactly like the field name. -/
def foldName (s : String) : List Char := s.data.map foldChar

/-- The key `k` of a member names the field tagged `name`: it is spelled exactly
like the tag, or like it up to the case of its letters. -/
def namesField (name k : String) : Prop := k = name ∨ foldName k = foldName name

instance (name k : String) : Decidable (namesField name k) := by
  unfold namesField; infer_instance

/-- Decode the members of a JSON object into one Go `string` field tagged `name`,
the way `encoding/json` does: members are visited in order, a member whose key names
the field assigns it if its value is a string, leaves it alone if its value is
`null`, and otherwise records a type error (the first one is returned at the end)
while decoding goes on; other members are skipped. -/
def decodeStringField (name : String) :
    List (String × JSON) → String → Option String → Except String String
  | [], value, none => .ok value
  | [], _, some e => .error e
  | (k, v) :: rest, value, saved =>
    if namesField name k then
      match v with
      | .str s => decodeStringField name rest s saved
      | .null => decodeStringField name rest value saved
      | _ => decodeStringField name rest value
          (saved <|> some ("json: cannot unmarshal into Go struct field ." ++ name ++ " of type string"))
    else decodeStringField name rest value saved

/-- A model of the standard-library call `json.Unmarshal([]byte(plain), &data)` with
`data` of type `struct{ Title string }` tagged `json:"title"`: the decoded `Title`, or
the error. `null` decodes to the zero value; any other non-object is a type error. -/
def jsonUnmarshalTitle (plain : String) : Except String String :=
  match parseJSON plain with
  | none => .error "invalid character"
  | some .null => .ok ""
  | some (.obj members) => decodeStringField "title" members "" none
  | some _ => .error "json: cannot unmarshal into Go value of type struct"


/-- Decode a JSON value into a Go struct with one `string` field called `name`. -/
def decodeStruct1 (name : String) : JSON → Except String String
  | .null => .ok ""
  | .obj members => decodeStringField name members "" none
  | _ => .error "json: cannot unmarshal into Go value of type struct"

/-- Modelled from the spec: the decoding of a `Paste` from its wire shape
`{id, ciphertext, ...}` (the JSON tags are declared in the absent `api/types.go`). -/
def decodePasteValue : JSON → Except String Paste
  | .null => .ok { ID := "", Ciphertext := "", CreatedAt := "", ExpiresAt := none }
  | .obj members =>
    match decodeStringField "id" members "" none,
          decodeStringField "ciphertext" members "" none,
          decodeStringField "createdAt" members "" none,
          decodeStringField "expiresAt" members "" none with
    | .ok id, .ok ct, .ok created, .ok expires =>
      .ok { ID := id, Ciphertext := ct, CreatedAt := created,
            ExpiresAt := if expires = "" then none else some expires }
    | _, _, _, _ => .error "json: cannot unmarshal into Go struct field of type string"
  | _ => .error "json: cannot unmarshal into Go value of type api.Paste"

/-- Decode every element of a JSON array as a `Paste`, stopping at the first error. -/
def decodePasteValues : List JSON → Except String (List Paste)
  | [] => .ok []
  | v :: vs =>
    match decodePasteValue v, decodePasteValues vs with
    | .ok p, .ok ps => .ok (p :: ps)
    | .error e, _ => .error e
    | _, .error e => .error e

/-- Modelled from the spec: the decoding of the listing `200 [{id, ciphertext, ...}]`
into `[]Paste`. -/
def decodePasteList (body : String) : Except String (List Paste) :=
  match parseJSON body with
  | none => .error "invalid character"
  | some .null => .ok []
  | some (.arr elems) => decodePasteValues elems
  | some _ => .error "json: cannot unmarshal into Go value of type []api.Paste"

/-- Remove the leading `key` from `text`, when `text` starts with it. -/
def stripKey : List Char → List Char → Option (List Char)
  | [], text => some text
  | _ :: _, [] => none
  | k :: ks, c :: cs => if k = c then stripKey ks cs else none

/-- Modelled from the spec: `crypt.DecryptPaste(pasteID, ciphertext)`, whose package
is not among the sources, over a local table of content keys: a `pasteID` absent
from the table fails (`KeyNotFound`), an envelope that does not authenticate under
the stored key fails (`DecryptionError`), otherwise the plaintext comes back. The
envelope of this stand-in is the key followed by the plaintext. -/
def tableDecryptPaste (keys : List (String × String)) (pasteID ciphertext : String) :
    Except String String :=
  match keys.lookup pasteID with
  | none => .error "KeyNotFound"
  | some key =>
    match stripKey key.data ciphertext.data with
    | none => .error "DecryptionError"
    | some plain => .ok (String.mk plain)

/-- A concrete outside world: every HTTP exchange has the outcome `http`, the key
store holds `keys`, a request can always be built, and bodies are JSON with the
wire names of the spec. -/
def exampleEnv (http : HttpResult) (keys : List (String × String)) : Env where
  marshalRegisterUserRequest r := .ok ("\x7b\"publicKey\":\"" ++ r.PublicKey ++ "\"\x7d")
  marshalAuthRequest r :=
    .ok ("\x7b\"id\":\"" ++ r.ID ++ "\",\"signedChallenge\":\"" ++ r.SignedChallenge ++ "\"\x7d")
  marshalPasteRequest r := .ok ("\x7b\"ciphertext\":\"" ++ r.Ciphertext ++ "\"\x7d")
  NewRequest method url body := .ok { Method := method, URL := url, Body := body, Header := [] }
  Post _ _ _ := http
  Do _ := http
  decodeRegisterUserResponse body :=
    match parseJSON body with
    | none => .error "invalid character"
    | some v => (decodeStruct1 "userID" v).map fun id => { ID := id }
  decodeAuthResponse body :=
    match parseJSON body with
    | none => .error "invalid character"
    | some v => (decodeStruct1 "sessionToken" v).map fun t => { Token := t }
  decodeCreatePasteResponse body :=
    match parseJSON body with
    | none => .error "invalid character"
    | some v => (decodeStruct1 "id" v).map fun id => { ID := id }
  decodePastes := decodePasteList
  decodePaste body :=
    match parseJSON body with
    | none => .error "invalid character"
    | some v => decodePasteValue v
  QueryEscape s := s
  DecryptPaste := tableDecryptPaste keys
  unmarshalTitle := jsonUnmarshalTitle

/-! ## `tui/views/register.go` -/

/-- The values of `tea.Cmd` the view deals in: `nil`, `tea.Quit`, a closure
returning a message (`func` with `none` for a closure that returns `nil`), and
`tea.Batch(cmds...)`. -/
inductive Cmd where
  | nil
  | Quit
  | func (result : Option Msg)
  | Batch (cmds : List Cmd)

/-- The type `State` with the four constants declared in `register.go` and the two,
`err` and `done`, that `Update` and `View` take from elsewhere in the package. -/
inductive State where
  | selectingMethod
  | generatingKey
  | enterKeyFile
  | registering
  | err
  | done
  deriving DecidableEq, Repr

/-- The struct `item`. -/
structure item where
  title : String
  desc : String
  deriving DecidableEq, Repr

/-- The widgets of the `bubbles` library and the `lipgloss` renderer, as far as
`register.go` calls them, over a list model `L` and a text-input model `T`.
`SelectedItem` is `none` when the list has no selected item. `InputsStyle` is the
assignment of `PromptStyle` and `TextStyle` in `View`. -/
structure Bubbles (L T : Type) where
  ListNew : List item → String → L
  ListSetSize : L → Int → Int → L
  CursorUp : L → L
  CursorDown : L → L
  SelectedItem : L → Option item
  ListUpdate : L → Msg → L × Cmd
  ListView : L → String
  InputsNew : String → T
  InputsSetWidth : T → Int → T
  InputsUpdate : T → Msg → T × Cmd
  InputsStyle : T → T
  InputsView : T → String
  Render : String → String

/-- The struct `RegisterModel`; `err` is `none` for a `nil` error. -/
structure RegisterModel (L T : Type) where
  CurrentState : State
  List : L
  Inputs : T
  statusMessage : String
  err : Option String
  width : Int
  height : Int
  user : User

/-- The method `SetSize`. -/
def RegisterModel.SetSize {L T : Type} (lib : Bubbles L T) (m : RegisterModel L T)
    (width height : Int) : RegisterModel L T :=
  { m with
    width := width
    height := height
    List := lib.ListSetSize m.List (width - 4) (height - 4)
    Inputs := lib.InputsSetWidth m.Inputs (width - 4) }

/-- The constructor `NewRegisterModel`; the fields it does not set are zero. -/
def NewRegisterModel {L T : Type} (lib : Bubbles L T) : RegisterModel L T :=
  let items : List item :=
    [ { title := "Generate a new key pair (recommended)",
        desc := "Creates a new secure key pair for you." },
      { title := "Use an existing private key file",
        desc := "Import an existing private key file." } ]
  { CurrentState := .selectingMethod
    List := lib.ListNew items "How would you like to set up your account?"
    Inputs := lib.InputsNew "Enter file location"
    statusMessage := ""
    err := none
    width := 0
    height := 0
    user := { ID := "" } }

/-- The method `generateKeyCmd`: a closure that returns `nil`. -/
def generateKeyCmd : Cmd := .func none

/-- The tail of `Update`, reached when no case of the switch returns: the message
goes to `List.Update`, then to `Inputs.Update`, and the two commands are batched. -/
def RegisterModel.forward {L T : Type} (lib : Bubbles L T) (m : RegisterModel L T)
    (msg : Msg) : RegisterModel L T × Cmd :=
  let l := lib.ListUpdate m.List msg
  let t := lib.InputsUpdate m.Inputs msg
  ({ m with List := l.1, Inputs := t.1 }, .Batch [l.2, t.2])

/-- The method `Update`: the model after the message and the command returned.
`none` is the panic of the type assertion `SelectedItem().(item)` on a list without
a selected item. -/
def RegisterModel.Update {L T : Type} (lib : Bubbles L T) (m : RegisterModel L T)
    (msg : Msg) : Option (RegisterModel L T × Cmd) :=
  match msg with
  | .KeyMsg key =>
    if key = "ctrl+c" ∨ key = "esc" then some (m, .Quit)
    else if key = "enter" then
      match m.CurrentState with
      | .selectingMethod =>
        match lib.SelectedItem m.List with
        | none => none
        | some selected =>
          if selected.title = "Generate a new key pair (recommended)" then
            some ({ m with CurrentState := .generatingKey }, generateKeyCmd)
          else
            some ({ m with CurrentState := .enterKeyFile }, .nil)
      | .enterKeyFile => some ({ m with CurrentState := .registering }, .nil)
      | _ => some (m.forward lib msg)
    else if key = "up" ∨ key = "k" then
      some ({ m with List := lib.CursorUp m.List }, .nil)
    else if key = "down" ∨ key = "j" then
      some ({ m with List := lib.CursorDown m.List }, .nil)
    else some (m.forward lib msg)
  | .RegisterUserResponse r =>
    some ({ m with
            CurrentState := .done
            statusMessage := "Registration successful. User ID: " ++ m.user.ID },
          .func (some (.RegistrationSuccessMsg r.ID)))
  | .RegistrationErrorMsg e =>
    some ({ m with
            err := e
            statusMessage := "Registration failed: " ++ e.getD "<nil>"
            CurrentState := .selectingMethod }, .nil)
  | _ => some (m.forward lib msg)

/-- The method `View`: the rendered screen. -/
def RegisterModel.View {L T : Type} (lib : Bubbles L T) (m : RegisterModel L T) : String :=
  let inputs := lib.InputsStyle m.Inputs
  let b : String :=
    match m.CurrentState with
    | .selectingMethod =>
      lib.ListView m.List ++ "\n(Use ↑/↓ to navigate, Enter to select, Ctrl+C to quit)"
    | .generatingKey => "Generating key pair...\n"
    | .enterKeyFile =>
      "Enter path to private key file: \n" ++ (lib.InputsView inputs ++ "\n")
        ++ "\nPress Enter to submit, Ctrl+C to quit"
    | .registering => "Registering...\n"
    | .err => m.statusMessage ++ "\n\nPress Enter to retry or Ctrl+C to quit"
    | .done => m.statusMessage ++ "\n\nPress Ctrl+C to quit"
  lib.Render b

/-! ### A concrete widget library, for evaluating the view on examples -/

/-- A list widget reduced to its items and cursor. -/
structure SimpleList where
  items : List item
  cursor : Nat
  deriving DecidableEq, Repr

/-- A text input reduced to its value and focus. -/
structure SimpleInput where
  value : String
  focus : Bool
  deriving DecidableEq, Repr

/-- Move the cursor of a `SimpleList` one item up, stopping at the first. -/
def SimpleList.up (l : SimpleList) : SimpleList := { l with cursor := l.cursor - 1 }

/-- Move the cursor of a `SimpleList` one item down, stopping at the last. -/
def SimpleList.down (l : SimpleList) : SimpleList :=
  { l with cursor := if l.cursor + 1 < l.items.length then l.cursor + 1 else l.cursor }

/-- A focused `SimpleInput` takes a key press of one character as typed text and
`backspace` as deletion; every other message leaves it alone. -/
def SimpleInput.update (t : SimpleInput) : Msg → SimpleInput
  | .KeyMsg key =>
    if t.focus = false then t
    else if key = "backspace" then { t with value := String.mk t.value.data.dropLast }
    else if key.length = 1 then { t with value := t.value ++ key }
    else t
  | _ => t

/-- A small stand-in for the `bubbles` widgets: the list moves its cursor on
`up`/`k`/`down`/`j`, the focused text input appends typed characters, rendering is
the identity. -/
def simpleBubbles : Bubbles SimpleList SimpleInput where
  ListNew items _ := { items := items, cursor := 0 }
  ListSetSize l _ _ := l
  CursorUp := SimpleList.up
  CursorDown := SimpleList.down
  SelectedItem l := l.items.get? l.cursor
  ListUpdate l msg :=
    match msg with
    | .KeyMsg key =>
      if key = "up" ∨ key = "k" then (l.up, .nil)
      else if key = "down" ∨ key = "j" then (l.down, .nil)
      else (l, .nil)
    | _ => (l, .nil)
  ListView l := String.intercalate "\n" (l.items.map fun i => i.title)
  InputsNew _ := { value := "", focus := true }
  InputsSetWidth t _ := t
  InputsUpdate t msg := (t.update msg, .nil)
  InputsStyle t := t
  InputsView t := "> " ++ t.value
  Render s := s

/-- The registration model at the prompt for the key-file path, with `typed`
already in the text input. -/
def atKeyFilePrompt (typed : String) : RegisterModel SimpleList SimpleInput :=
  { NewRegisterModel simpleBubbles with
    CurrentState := .enterKeyFile
    Inputs := { value := typed, focus := true } }

/-! ## Notions used to state the properties -/

/-- The request of `GetPastes publicKey` was built and sent, the response had status
200, and its body decoded to `pastes`. -/
def ListingDecoded (env : Env) (publicKey : String) (pastes : List Paste) : Prop :=
  ∃ req Body,
    env.NewRequest "GET"
      (backendURL ++ "/api/pastes?public_key=" ++ env.QueryEscape publicKey) none = .ok req ∧
    env.Do req = .response 200 Body ∧ env.decodePastes Body = .ok pastes

/-- Whether `crypt.DecryptPaste` succeeds for the paste `p`. -/
def decrypts (env : Env) (p : Paste) : Bool :=
  match env.DecryptPaste p.ID p.Ciphertext with
  | .ok _ => true
  | .error _ => false

/-- A key store holding the key of `p1` only. -/
def exampleKeys : List (String × String) := [("p1", "k1")]

/-- A listing of two pastes: `p1`, whose body has the title `Error decrypting`, and
`p2`, for which no key is held. -/
def collisionPastes : List Paste :=
  [ { ID := "p1", Ciphertext := "k1\x7b\"title\":\"Error decrypting\"\x7d",
      CreatedAt := "", ExpiresAt := none },
    { ID := "p2", Ciphertext := "zzzz", CreatedAt := "", ExpiresAt := none } ]

/-- The wire form of `collisionPastes`. -/
def collisionBody : String :=
  "[\x7b\"id\":\"p1\",\"ciphertext\":\"k1\x7b\\\"title\\\":\\\"Error decrypting\\\"\x7d\"\x7d," ++
  "\x7b\"id\":\"p2\",\"ciphertext\":\"zzzz\"\x7d]"

/-- A listing of two pastes: `p1`, created with the body
`{"title":"hi","body":"x"}`, and `p2`, for which no key is held. -/
def examplePastes : List Paste :=
  [ { ID := "p1", Ciphertext := "k1\x7b\"title\":\"hi\",\"body\":\"x\"\x7d",
      CreatedAt := "", ExpiresAt := none },
    { ID := "p2", Ciphertext := "zzzz", CreatedAt := "", ExpiresAt := none } ]

/-- The wire form of `examplePastes`. -/
def exampleBody : String :=
  "[\x7b\"id\":\"p1\",\"ciphertext\":\"k1\x7b\\\"title\\\":\\\"hi\\\",\\\"body\\\":\\\"x\\\"\x7d\"\x7d," ++
  "\x7b\"id\":\"p2\",\"ciphertext\":\"zzzz\"\x7d]"

/-- A paste whose body, once decrypted, is not JSON. -/
def malformedPaste : Paste :=
  { ID := "p1", Ciphertext := "k1not json", CreatedAt := "", ExpiresAt := none }

/-- The world in which the server answers the listing with `collisionBody`. -/
def collisionEnv : Env := exampleEnv (.response 200 collisionBody) exampleKeys

/-- The world in which the server answers the listing with `exampleBody`. -/
def listingEnv : Env := exampleEnv (.response 200 exampleBody) exampleKeys

/-- A paste for which no key is held. -/
def foreignPaste : Paste :=
  { ID := "p9", Ciphertext := "????", CreatedAt := "", ExpiresAt := none }

/-- The wire form of `examplePastes` with `foreignPaste` in the place of `p1`. -/
def replacedBody : String :=
  "[\x7b\"id\":\"p9\",\"ciphertext\":\"????\"\x7d," ++
  "\x7b\"id\":\"p2\",\"ciphertext\":\"zzzz\"\x7d]"

/-- The world in which the server answers the listing with `replacedBody`. -/
def replacedEnv : Env := exampleEnv (.response 200 replacedBody) exampleKeys

/-- The wire form of the listing that holds `malformedPaste` alone. -/
def malformedBody : String :=
  "[\x7b\"id\":\"p1\",\"ciphertext\":\"k1not json\"\x7d]"

/-- The world in which the server answers the listing with `malformedBody`. -/
def malformedEnv : Env := exampleEnv (.response 200 malformedBody) exampleKeys

/-- The world in which the server answers every request with `404`. -/
def notFoundEnv : Env := exampleEnv (.response 404 "paste not found") exampleKeys

/-- The world in which the server answers every request with `409` and the body
`public key already registered`. -/
def conflictEnv : Env := exampleEnv (.response 409 "public key already registered") []

/-- The world in which the server answers every request with `401` and the body
`signature rejected`. -/
def rejectedEnv : Env := exampleEnv (.response 401 "signature rejected") []

/-- The world in which the server answers every request with `201` and the body
`{"id":"p1"}`. -/
def createdEnv : Env := exampleEnv (.response 201 "\x7b\"id\":\"p1\"\x7d") exampleKeys

/-- The text of the transport error used in the examples. -/
def refused : String := "dial tcp 127.0.0.1:8081: connect: connection refused"

/-- The world in which every HTTP send fails with the error `refused`. -/
def offlineEnv : Env := exampleEnv (.failed refused) exampleKeys

/-- A key store holding the keys of `p1` and `p2`. -/
def twoKeys : List (String × String) := [("p1", "k1"), ("p2", "k2")]

/-- A listing of two pastes this client can decrypt: `p1`, whose body
`{"body":"x"}` has no title, and `p2`, whose body `{"title":"hi","Title":"bye"}`
names the title twice. -/
def oddPastes : List Paste :=
  [ { ID := "p1", Ciphertext := "k1\x7b\"body\":\"x\"\x7d",
      CreatedAt := "", ExpiresAt := none },
    { ID := "p2", Ciphertext := "k2\x7b\"title\":\"hi\",\"Title\":\"bye\"\x7d",
      CreatedAt := "", ExpiresAt := none } ]

/-- The wire form of `oddPastes`. -/
def oddBody : String :=
  "[\x7b\"id\":\"p1\",\"ciphertext\":\"k1\x7b\\\"body\\\":\\\"x\\\"\x7d\"\x7d," ++
  "\x7b\"id\":\"p2\",\"ciphertext\":\"k2\x7b\\\"title\\\":\\\"hi\\\",\\\"Title\\\":\\\"bye\\\"\x7d\"\x7d]"

/-- The world in which the server answers the listing with `oddBody`. -/
def oddEnv : Env := exampleEnv (.response 200 oddBody) twoKeys

/-- A key store holding the same key `k` for the pastes `a` to `f`. -/
def variedKeys : List (String × String) :=
  [("a", "k"), ("b", "k"), ("c", "k"), ("d", "k"), ("e", "k"), ("f", "k")]

/-- A listing of six pastes this client can decrypt, with bodies of every kind: an
object with white space, numbers and two members naming the title; an object whose
title is a number; an array; `null`; a text that is not JSON; an object whose title
is `null`. -/
def variedPastes : List Paste :=
  [ { ID := "a", Ciphertext := "k\x7b \"n\" : [1, -2.5e3, true, null], \"Title\" : \"h\\u0041\" ,\t\"title\" : null \x7d",
      CreatedAt := "", ExpiresAt := none },
    { ID := "b", Ciphertext := "k\x7b\"title\":7\x7d",
      CreatedAt := "", ExpiresAt := none },
    { ID := "c", Ciphertext := "k[1]",
      CreatedAt := "", ExpiresAt := none },
    { ID := "d", Ciphertext := "knull",
      CreatedAt := "", ExpiresAt := none },
    { ID := "e", Ciphertext := "k\x7b\"title\":\"x\" \"y\"\x7d",
      CreatedAt := "", ExpiresAt := none },
    { ID := "f", Ciphertext := "k\x7b\"title\":null,\"body\":\"\\ud83d\\ude00\"\x7d",
      CreatedAt := "", ExpiresAt := none } ]

/-- The wire form of `variedPastes`. -/
def variedBody : String :=
  "[\x7b\"id\":\"a\",\"ciphertext\":\"k\x7b \\\"n\\\" : [1, -2.5e3, true, null], \\\"Title\\\" : \\\"h\\\\u0041\\\" ,\\t\\\"title\\\" : null \x7d\"\x7d," ++
  "\x7b\"id\":\"b\",\"ciphertext\":\"k\x7b\\\"title\\\":7\x7d\"\x7d," ++
  "\x7b\"id\":\"c\",\"ciphertext\":\"k[1]\"\x7d," ++
  "\x7b\"id\":\"d\",\"ciphertext\":\"knull\"\x7d," ++
  "\x7b\"id\":\"e\",\"ciphertext\":\"k\x7b\\\"title\\\":\\\"x\\\" \\\"y\\\"\x7d\"\x7d," ++
  "\x7b\"id\":\"f\",\"ciphertext\":\"k\x7b\\\"title\\\":null,\\\"body\\\":\\\"\\\\ud83d\\\\ude00\\\"\x7d\"\x7d]"

/-- The world in which the server answers the listing with `variedBody`. -/
def variedEnv : Env := exampleEnv (.response 200 variedBody) variedKeys

/-! ## The loop of `GetPastes` -/

theorem titlesLoop_eq (env : Env) : ∀ (rest : List Paste) (done : List String),
    titlesLoop env rest done.length (done ++ List.replicate rest.length "")
      = done ++ rest.map fun p => pasteTitle env p.ID p.Ciphertext
  | [], done => by simp [titlesLoop]
  | p :: rest, done => by
    have h := titlesLoop_eq env rest (done ++ [pasteTitle env p.ID p.Ciphertext])
    simp only [List.length_append, List.length_singleton, List.append_assoc,
      List.singleton_append] at h
    simp only [titlesLoop, List.length_cons, List.replicate_succ, List.map_cons]
    rw [← h]
    congr 1
    simp [List.set_append]

theorem pasteTitles_eq_map (env : Env) (pastes : List Paste) :
    pasteTitles env pastes = pastes.map fun p => pasteTitle env p.ID p.Ciphertext := by
  have h := titlesLoop_eq env pastes []
  simpa [pasteTitles] using h

theorem GetPastes_of_decoded (env : Env) (publicKey : String) (pastes : List Paste)
    (h : ListingDecoded env publicKey pastes) :
    GetPastes env publicKey = .PasteListFetchedMsg pastes
      (pastes.map fun p => pasteTitle env p.ID p.Ciphertext) := by
  obtain ⟨req, Body, hreq, hdo, hdec⟩ := h
  simp [GetPastes, hreq, hdo, hdec, pasteTitles_eq_map]

theorem count_sentinel (env : Env) (pastes : List Paste)
    (hfree : ∀ p ∈ pastes, ∀ plain, env.DecryptPaste p.ID p.Ciphertext = .ok plain →
      env.unmarshalTitle plain ≠ .ok "Error decrypting") :
    (pastes.map fun p => pasteTitle env p.ID p.Ciphertext).count "Error decrypting"
      + pastes.countP (decrypts env) = pastes.length := by
  induction pastes with
  | nil => simp
  | cons p rest ih =>
    have ih := ih fun q hq => hfree q (List.mem_cons_of_mem _ hq)
    have hp := hfree p (List.mem_cons_self _ _)
    simp only [List.map_cons, List.length_cons, List.count_cons, List.countP_cons]
    cases hd : env.DecryptPaste p.ID p.Ciphertext with
    | error e =>
      have h1 : pasteTitle env p.ID p.Ciphertext = "Error decrypting" := by
        simp [pasteTitle, hd]
      have h2 : decrypts env p = false := by simp [decrypts, hd]
      rw [h1, h2]
      simp only [beq_self_eq_true, if_true, Bool.false_eq_true, if_false]
      omega
    | ok plain =>
      have h1 : (pasteTitle env p.ID p.Ciphertext == "Error decrypting") = false := by
        have := hp plain hd
        simp only [pasteTitle, hd, beq_eq_false_iff_ne]
        cases hu : env.unmarshalTitle plain with
        | error e => simp
        | ok t =>
          simp only
          intro ht
          exact this (by rw [hu, ht])
      have h2 : decrypts env p = true := by simp [decrypts, hd]
      rw [h1, h2]
      simp only [if_true, Bool.false_eq_true, if_false]
      omega

theorem listingEnv_decoded : ListingDecoded listingEnv "pk" examplePastes :=
  ⟨_, exampleBody, rfl, rfl, rfl⟩

theorem collisionEnv_decoded : ListingDecoded collisionEnv "pk" collisionPastes :=
  ⟨_, collisionBody, rfl, rfl, rfl⟩

theorem pasteTitle_congr (env env' : Env) (hD : env'.DecryptPaste = env.DecryptPaste)
    (hU : env'.unmarshalTitle = env.unmarshalTitle) (ID Ciphertext : String) :
    pasteTitle env' ID Ciphertext = pasteTitle env ID Ciphertext := by
  simp [pasteTitle, hD, hU]

/-! ## `GetPastes` -/

/-- C1, as stated, fails: in a listing of N = 2 pastes of which K = 1 decrypts, the
decrypted body of `p1` has the title `Error decrypting`, so both entries of `Titles`
equal the sentinel, not N − K = 1 of them. -/
theorem GetPastes_sentinel_count_counterexample :
    ListingDecoded collisionEnv "pk" collisionPastes ∧
    collisionPastes.countP (decrypts collisionEnv) = 1 ∧
    1 < collisionPastes.length ∧
    GetPastes collisionEnv "pk"
      = .PasteListFetchedMsg collisionPastes ["Error decrypting", "Error decrypting"] ∧
    ¬ ∃ Titles, GetPastes collisionEnv "pk" = .PasteListFetchedMsg collisionPastes Titles ∧
        Titles.count "Error decrypting" = collisionPastes.length - 1 := by
  have hrun : GetPastes collisionEnv "pk"
      = .PasteListFetchedMsg collisionPastes ["Error decrypting", "Error decrypting"] := by
    rw [GetPastes_of_decoded _ _ _ collisionEnv_decoded]
    rfl
  refine ⟨collisionEnv_decoded, by rfl, by decide, hrun, ?_⟩
  rintro ⟨Titles, hT, hcount⟩
  rw [hrun] at hT
  injection hT with _ hT
  subst hT
  revert hcount
  decide

/-- C1, amended: when the 200 response decodes to N pastes of which exactly K < N
decrypt, `GetPastes` returns a `PasteListFetchedMsg` whose `List` is those pastes in
server order and whose `Titles` has length N; the entry at every index where
decryption fails is `Error decrypting`; the entry at every index where decryption
succeeds is the title decoded from the decrypted body, or `Invalid JSON` when the body
does not decode; and exactly N − K entries equal `Error decrypting` provided no
decrypted body decodes to the title `Error decrypting`. -/
theorem GetPastes_missing_key_tolerance (env : Env) (publicKey : String)
    (pastes : List Paste) (K : Nat)
    (hlist : ListingDecoded env publicKey pastes)
    (hK : pastes.countP (decrypts env) = K) (hlt : K < pastes.length) :
    ∃ Titles, GetPastes env publicKey = .PasteListFetchedMsg pastes Titles ∧
      Titles.length = pastes.length ∧
      (∀ (i : Nat) (p : Paste), pastes[i]? = some p →
        (∀ e, env.DecryptPaste p.ID p.Ciphertext = .error e →
          Titles[i]? = some "Error decrypting") ∧
        (∀ plain t, env.DecryptPaste p.ID p.Ciphertext = .ok plain →
          env.unmarshalTitle plain = .ok t → Titles[i]? = some t) ∧
        (∀ plain e, env.DecryptPaste p.ID p.Ciphertext = .ok plain →
          env.unmarshalTitle plain = .error e → Titles[i]? = some "Invalid JSON")) ∧
      ((∀ p ∈ pastes, ∀ plain, env.DecryptPaste p.ID p.Ciphertext = .ok plain →
          env.unmarshalTitle plain ≠ .ok "Error decrypting") →
        Titles.count "Error decrypting" = pastes.length - K) := by
  refine ⟨_, GetPastes_of_decoded env publicKey pastes hlist, by simp, ?_, ?_⟩
  · intro i p hp
    simp only [List.getElem?_map, hp, Option.map_some']
    refine ⟨?_, ?_, ?_⟩
    · intro e he
      simp [pasteTitle, he]
    · intro plain t hd ht
      simp [pasteTitle, hd, ht]
    · intro plain e hd he
      simp [pasteTitle, hd, he]
  · intro hfree
    have := count_sentinel env pastes hfree
    omega

/-- Witness for C1 amended: the listing `examplePastes` (N = 2, K = 1) gives the
titles `hi` and `Error decrypting`, one sentinel entry. -/
theorem GetPastes_missing_key_tolerance_witness :
    ListingDecoded listingEnv "pk" examplePastes ∧
    examplePastes.countP (decrypts listingEnv) = 1 ∧ 1 < examplePastes.length ∧
    ∃ Titles, GetPastes listingEnv "pk" = .PasteListFetchedMsg examplePastes Titles ∧
      Titles.length = 2 ∧ Titles[0]? = some "hi" ∧ Titles[1]? = some "Error decrypting" ∧
      Titles.count "Error decrypting" = 1 := by
  refine ⟨listingEnv_decoded, by rfl, by decide, ?_⟩
  obtain ⟨Titles, hrun, hlen, hidx, hcount⟩ :=
    GetPastes_missing_key_tolerance listingEnv "pk" examplePastes 1
      listingEnv_decoded (by rfl) (by decide)
  refine ⟨Titles, hrun, hlen, ?_, ?_, ?_⟩
  · exact (hidx 0 _ rfl).2.1 "\x7b\"title\":\"hi\",\"body\":\"x\"\x7d" "hi" (by rfl) (by rfl)
  · exact (hidx 1 _ rfl).1 "KeyNotFound" (by rfl)
  · apply hcount
    intro p hp plain hd hu
    simp only [examplePastes, List.mem_cons, List.mem_singleton, List.not_mem_nil,
      or_false] at hp
    rcases hp with rfl | rfl
    · have h1 : listingEnv.DecryptPaste "p1" "k1\x7b\"title\":\"hi\",\"body\":\"x\"\x7d"
          = .ok "\x7b\"title\":\"hi\",\"body\":\"x\"\x7d" := by rfl
      have h2 : listingEnv.unmarshalTitle "\x7b\"title\":\"hi\",\"body\":\"x\"\x7d"
          = .ok "hi" := by rfl
      simp only at hd
      rw [h1] at hd
      injection hd with hd
      subst hd
      rw [h2] at hu
      injection hu with hu
      revert hu
      decide
    · have h1 : listingEnv.DecryptPaste "p2" "zzzz" = .error "KeyNotFound" := by rfl
      simp only at hd
      rw [h1] at hd
      cases hd

/-- C2: once the 200 response body has decoded to a paste list, `GetPastes` returns a
`PasteListFetchedMsg` and never an `ErrMsg`, whatever decryption and parsing do;
`Titles[j]` is `pasteTitle` of `pastes[j].ID` and `pastes[j].Ciphertext` alone; and
in a second run, with the same key store and decoder, in which the server lists
another paste `bad` at index `i`, every entry `Titles[j]` with `j ≠ i` is the same. -/
theorem GetPastes_item_failure_isolated (env env' : Env) (publicKey : String)
    (pastes : List Paste) (i : Nat) (bad : Paste)
    (hD : env'.DecryptPaste = env.DecryptPaste)
    (hU : env'.unmarshalTitle = env.unmarshalTitle)
    (h : ListingDecoded env publicKey pastes)
    (h' : ListingDecoded env' publicKey (pastes.set i bad)) :
    ∃ Titles Titles',
      GetPastes env publicKey = .PasteListFetchedMsg pastes Titles ∧
      GetPastes env' publicKey = .PasteListFetchedMsg (pastes.set i bad) Titles' ∧
      (∀ text, GetPastes env publicKey ≠ .ErrMsg text) ∧
      (∀ text, GetPastes env' publicKey ≠ .ErrMsg text) ∧
      (∀ (j : Nat) (p : Paste), pastes[j]? = some p →
        Titles[j]? = some (pasteTitle env p.ID p.Ciphertext)) ∧
      (∀ j, j ≠ i → Titles'[j]? = Titles[j]?) := by
  have hrun := GetPastes_of_decoded env publicKey pastes h
  have hrun' := GetPastes_of_decoded env' publicKey _ h'
  refine ⟨_, _, hrun, hrun', ?_, ?_, ?_, ?_⟩
  · intro text
    rw [hrun]
    simp
  · intro text
    rw [hrun']
    simp
  · intro j p hp
    simp [List.getElem?_map, hp]
  · intro j hj
    simp only [List.getElem?_map, pasteTitle_congr env env' hD hU]
    rw [List.getElem?_set_ne (Ne.symm hj)]

/-- Witness for C2: the listing `examplePastes`, and a second run in which the server
lists the undecryptable `foreignPaste` in the place of `p1`; the entry of `p2` is
the same in both. -/
theorem GetPastes_item_failure_isolated_witness :
    ListingDecoded listingEnv "pk" examplePastes ∧
    ListingDecoded replacedEnv "pk" (examplePastes.set 0 foreignPaste) ∧
    ∃ Titles Titles',
      GetPastes listingEnv "pk" = .PasteListFetchedMsg examplePastes Titles ∧
      GetPastes replacedEnv "pk"
        = .PasteListFetchedMsg (examplePastes.set 0 foreignPaste) Titles' ∧
      Titles[0]? = some "hi" ∧ Titles'[1]? = Titles[1]? := by
  have h' : ListingDecoded replacedEnv "pk" (examplePastes.set 0 foreignPaste) :=
    ⟨_, replacedBody, rfl, rfl, rfl⟩
  refine ⟨listingEnv_decoded, h', ?_⟩
  obtain ⟨Titles, Titles', hrun, hrun', _, _, hfun, hsame⟩ :=
    GetPastes_item_failure_isolated listingEnv replacedEnv "pk" examplePastes 0
      foreignPaste rfl rfl listingEnv_decoded h'
  exact ⟨Titles, Titles', hrun, hrun', hfun 0 _ rfl, hsame 1 (by decide)⟩

/-! ### Decoding the title -/

theorem decodeStringField_saved (name : String) :
    ∀ (ms : List (String × JSON)) (value e : String),
      decodeStringField name ms value (some e) = .error e
  | [], _, _ => rfl
  | (k, v) :: rest, value, e => by
    have ih := decodeStringField_saved name rest
    have hor : ∀ x : String, (some e <|> some x) = some e := fun _ => rfl
    by_cases hk : namesField name k
    · cases v <;> simp [decodeStringField, hk, ih, hor]
    · simp [decodeStringField, hk, ih]

theorem decodeStringField_bad (name : String) :
    ∀ (ms : List (String × JSON)) (value : String) (saved : Option String)
      (m : String × JSON), m ∈ ms → namesField name m.1 → m.2 ≠ .null →
      (∀ s, m.2 ≠ .str s) → ∃ e, decodeStringField name ms value saved = .error e
  | [], _, _, _, hm, _, _, _ => by cases hm
  | (k, v) :: rest, value, saved, m, hm, hname, hnull, hstr => by
    have ih := decodeStringField_bad name rest
    have hsome : ∀ x : String, ∃ e, (saved <|> some x) = some e := by
      intro x
      cases saved with
      | none => exact ⟨x, rfl⟩
      | some e => exact ⟨e, rfl⟩
    rcases List.mem_cons.1 hm with rfl | hrest
    · have hk : namesField name k := hname
      cases v with
      | null => exact absurd rfl hnull
      | str s => exact absurd rfl (hstr s)
      | bool b =>
        obtain ⟨e, he⟩ := hsome ("json: cannot unmarshal into Go struct field ." ++ name
          ++ " of type string")
        exact ⟨e, by simp [decodeStringField, hk, he, decodeStringField_saved]⟩
      | num t =>
        obtain ⟨e, he⟩ := hsome ("json: cannot unmarshal into Go struct field ." ++ name
          ++ " of type string")
        exact ⟨e, by simp [decodeStringField, hk, he, decodeStringField_saved]⟩
      | arr xs =>
        obtain ⟨e, he⟩ := hsome ("json: cannot unmarshal into Go struct field ." ++ name
          ++ " of type string")
        exact ⟨e, by simp [decodeStringField, hk, he, decodeStringField_saved]⟩
      | obj ms =>
        obtain ⟨e, he⟩ := hsome ("json: cannot unmarshal into Go struct field ." ++ name
          ++ " of type string")
        exact ⟨e, by simp [decodeStringField, hk, he, decodeStringField_saved]⟩
    · by_cases hk : namesField name k
      · cases v with
        | str s =>
          obtain ⟨e, he⟩ := ih s saved m hrest hname hnull hstr
          exact ⟨e, by simp [decodeStringField, hk, he]⟩
        | null =>
          obtain ⟨e, he⟩ := ih value saved m hrest hname hnull hstr
          exact ⟨e, by simp [decodeStringField, hk, he]⟩
        | bool b =>
          obtain ⟨e, he⟩ := ih value (saved <|> some ("json: cannot unmarshal into Go struct field ."
            ++ name ++ " of type string")) m hrest hname hnull hstr
          exact ⟨e, by simp [decodeStringField, hk, he]⟩
        | num t =>
          obtain ⟨e, he⟩ := ih value (saved <|> some ("json: cannot unmarshal into Go struct field ."
            ++ name ++ " of type string")) m hrest hname hnull hstr
          exact ⟨e, by simp [decodeStringField, hk, he]⟩
        | arr xs =>
          obtain ⟨e, he⟩ := ih value (saved <|> some ("json: cannot unmarshal into Go struct field ."
            ++ name ++ " of type string")) m hrest hname hnull hstr
          exact ⟨e, by simp [decodeStringField, hk, he]⟩
        | obj ms =>
          obtain ⟨e, he⟩ := ih value (saved <|> some ("json: cannot unmarshal into Go struct field ."
            ++ name ++ " of type string")) m hrest hname hnull hstr
          exact ⟨e, by simp [decodeStringField, hk, he]⟩
      · obtain ⟨e, he⟩ := ih value saved m hrest hname hnull hstr
        exact ⟨e, by simp [decodeStringField, hk, he]⟩

theorem decodeStringField_append (name : String) (rest : List (String × JSON)) :
    ∀ (before : List (String × JSON)) (value : String),
      (∀ m ∈ before, namesField name m.1 → m.2 = .null ∨ ∃ s, m.2 = .str s) →
      ∃ value', decodeStringField name (before ++ rest) value none
        = decodeStringField name rest value' none
  | [], value, _ => ⟨value, rfl⟩
  | (k, v) :: before, value, hgood => by
    have ih := decodeStringField_append name rest before
    have htail : ∀ m ∈ before, namesField name m.1 → m.2 = .null ∨ ∃ s, m.2 = .str s :=
      fun m hm => hgood m (List.mem_cons_of_mem _ hm)
    by_cases hk : namesField name k
    · rcases hgood (k, v) (List.mem_cons_self _ _) hk with hv | ⟨s, hv⟩
      · obtain ⟨value', h'⟩ := ih value htail
        simp only at hv
        subst hv
        exact ⟨value', by simp [decodeStringField, hk, h']⟩
      · obtain ⟨value', h'⟩ := ih s htail
        simp only at hv
        subst hv
        exact ⟨value', by simp [decodeStringField, hk, h']⟩
    · obtain ⟨value', h'⟩ := ih value htail
      exact ⟨value', by simp [decodeStringField, hk, h']⟩

theorem decodeStringField_nulls (name : String) :
    ∀ (ms : List (String × JSON)) (value : String),
      (∀ m ∈ ms, namesField name m.1 → m.2 = .null) →
      decodeStringField name ms value none = .ok value
  | [], _, _ => rfl
  | (k, v) :: rest, value, hnull => by
    have ih := decodeStringField_nulls name rest value
      fun m hm => hnull m (List.mem_cons_of_mem _ hm)
    by_cases hk : namesField name k
    · have hv := hnull (k, v) (List.mem_cons_self _ _) hk
      simp only at hv
      subst hv
      simp [decodeStringField, hk, ih]
    · simp [decodeStringField, hk, ih]

theorem decodeStringField_last (name : String) (before after : List (String × JSON))
    (k t value : String) (hk : namesField name k)
    (hafter : ∀ m ∈ after, namesField name m.1 → m.2 = .null)
    (hbefore : ∀ m ∈ before, namesField name m.1 → m.2 = .null ∨ ∃ s, m.2 = .str s) :
    decodeStringField name (before ++ (k, .str t) :: after) value none = .ok t := by
  obtain ⟨value', h'⟩ := decodeStringField_append name ((k, .str t) :: after) before value hbefore
  rw [h']
  simp [decodeStringField, hk, decodeStringField_nulls name after t hafter]

theorem pasteTitle_unmarshal (env : Env) (ID Ciphertext plain : String)
    (hU : env.unmarshalTitle = jsonUnmarshalTitle)
    (hd : env.DecryptPaste ID Ciphertext = .ok plain) :
    pasteTitle env ID Ciphertext =
      match jsonUnmarshalTitle plain with
      | .error _ => "Invalid JSON"
      | .ok title => title := by
  simp [pasteTitle, hd, hU]

theorem titles_unique {pastes : List Paste} {T T' : List String}
    (h : Msg.PasteListFetchedMsg pastes T = Msg.PasteListFetchedMsg pastes T') : T = T' :=
  (Msg.PasteListFetchedMsg.inj h).2

theorem oddEnv_decoded : ListingDecoded oddEnv "pk" oddPastes :=
  ⟨_, oddBody, rfl, rfl, rfl⟩

set_option maxRecDepth 100000 in
theorem variedEnv_decoded : ListingDecoded variedEnv "pk" variedPastes :=
  ⟨_, variedBody, rfl, rfl, rfl⟩

/-- C3, as stated, fails on both halves. The decrypted body `{"body":"x"}` of `p1` is
not a JSON object with a string field `title`, yet its entry is the empty string and
not `Invalid JSON`. The decrypted body `{"title":"hi","Title":"bye"}` of `p2` is a
JSON object with the string field `title` of value `hi`, yet its entry is `bye`. -/
theorem GetPastes_title_extraction_counterexample :
    ListingDecoded oddEnv "pk" oddPastes ∧
    oddEnv.DecryptPaste "p1" "k1\x7b\"body\":\"x\"\x7d" = .ok "\x7b\"body\":\"x\"\x7d" ∧
    parseJSON "\x7b\"body\":\"x\"\x7d" = some (.obj [("body", .str "x")]) ∧
    oddEnv.DecryptPaste "p2" "k2\x7b\"title\":\"hi\",\"Title\":\"bye\"\x7d"
      = .ok "\x7b\"title\":\"hi\",\"Title\":\"bye\"\x7d" ∧
    parseJSON "\x7b\"title\":\"hi\",\"Title\":\"bye\"\x7d"
      = some (.obj [("title", .str "hi"), ("Title", .str "bye")]) ∧
    GetPastes oddEnv "pk" = .PasteListFetchedMsg oddPastes ["", "bye"] ∧
    (¬ ∃ Titles, GetPastes oddEnv "pk" = .PasteListFetchedMsg oddPastes Titles ∧
        Titles[0]? = some "Invalid JSON") ∧
    ¬ ∃ Titles, GetPastes oddEnv "pk" = .PasteListFetchedMsg oddPastes Titles ∧
        Titles[1]? = some "hi" := by
  have hrun : GetPastes oddEnv "pk" = .PasteListFetchedMsg oddPastes ["", "bye"] := by
    rw [GetPastes_of_decoded _ _ _ oddEnv_decoded]
    rfl
  refine ⟨oddEnv_decoded, rfl, rfl, rfl, rfl, hrun, ?_, ?_⟩
  · rintro ⟨Titles, hT, h0⟩
    rw [hrun] at hT
    injection hT with _ hT
    subst hT
    revert h0
    decide
  · rintro ⟨Titles, hT, h1⟩
    rw [hrun] at hT
    injection hT with _ hT
    subst hT
    revert h1
    decide

/-- C3, amended: with `json.Unmarshal` decoding as `encoding/json` does
(`jsonUnmarshalTitle`), when the 200 response has decoded to `pastes` and `pastes[i]`
decrypts to `plain`:
* if `plain` is a JSON object in which a member named `title`, up to case, has the
  string value `t`, every later member so named is `null` and every earlier one is a
  string or `null`, then `Titles[i]` is `t`;
* if `plain` is not valid JSON, or is a JSON value other than an object or `null`, or
  is an object in which some member named `title`, up to case, is neither a string
  nor `null`, then `Titles[i]` is `Invalid JSON`;
* if `plain` is `null`, or an object in which every member named `title`, up to case,
  is `null` (in particular an object without such a member), then `Titles[i]` is the
  empty string;
and `Invalid JSON` differs from the decryption-failure sentinel `Error decrypting`. -/
theorem GetPastes_title_extraction (env : Env) (publicKey : String)
    (pastes : List Paste) (i : Nat) (p : Paste) (plain : String)
    (hU : env.unmarshalTitle = jsonUnmarshalTitle)
    (h : ListingDecoded env publicKey pastes) (hp : pastes[i]? = some p)
    (hd : env.DecryptPaste p.ID p.Ciphertext = .ok plain) :
    ∃ Titles, GetPastes env publicKey = .PasteListFetchedMsg pastes Titles ∧
      (∀ before k t after,
        parseJSON plain = some (.obj (before ++ (k, .str t) :: after)) →
        namesField "title" k →
        (∀ m ∈ after, namesField "title" m.1 → m.2 = .null) →
        (∀ m ∈ before, namesField "title" m.1 → m.2 = .null ∨ ∃ s, m.2 = .str s) →
        Titles[i]? = some t) ∧
      (parseJSON plain = none → Titles[i]? = some "Invalid JSON") ∧
      (∀ v, parseJSON plain = some v → v ≠ .null → (∀ members, v ≠ .obj members) →
        Titles[i]? = some "Invalid JSON") ∧
      (∀ members m, parseJSON plain = some (.obj members) → m ∈ members →
        namesField "title" m.1 → m.2 ≠ .null → (∀ s, m.2 ≠ .str s) →
        Titles[i]? = some "Invalid JSON") ∧
      (parseJSON plain = some .null → Titles[i]? = some "") ∧
      (∀ members, parseJSON plain = some (.obj members) →
        (∀ m ∈ members, namesField "title" m.1 → m.2 = .null) →
        Titles[i]? = some "") ∧
      "Invalid JSON" ≠ "Error decrypting" := by
  have hentry : (pastes.map fun p => pasteTitle env p.ID p.Ciphertext)[i]?
      = some (match jsonUnmarshalTitle plain with
        | .error _ => "Invalid JSON"
        | .ok title => title) := by
    simp [List.getElem?_map, hp, pasteTitle_unmarshal env p.ID p.Ciphertext plain hU hd]
  refine ⟨_, GetPastes_of_decoded env publicKey pastes h, ?_, ?_, ?_, ?_, ?_, ?_, by decide⟩
  · intro before k t after hparse hk hafter hbefore
    rw [hentry]
    simp [jsonUnmarshalTitle, hparse,
      decodeStringField_last "title" before after k t "" hk hafter hbefore]
  · intro hparse
    rw [hentry]
    simp [jsonUnmarshalTitle, hparse]
  · intro v hparse hnull hobj
    rw [hentry]
    cases v with
    | null => exact absurd rfl hnull
    | obj members => exact absurd rfl (hobj members)
    | bool b => simp [jsonUnmarshalTitle, hparse]
    | num t => simp [jsonUnmarshalTitle, hparse]
    | str s => simp [jsonUnmarshalTitle, hparse]
    | arr xs => simp [jsonUnmarshalTitle, hparse]
  · intro members m hparse hm hname hnull hstr
    rw [hentry]
    obtain ⟨e, he⟩ := decodeStringField_bad "title" members "" none m hm hname hnull hstr
    simp [jsonUnmarshalTitle, hparse, he]
  · intro hparse
    rw [hentry]
    simp [jsonUnmarshalTitle, hparse]
  · intro members hparse hnull
    rw [hentry]
    simp [jsonUnmarshalTitle, hparse, decodeStringField_nulls "title" members "" hnull]

/-- Witness for C3 amended: the paste `p1` created with the body
`{"title":"hi","body":"x"}` is listed with the title `hi`; and in a listing of six
decryptable pastes, a body with white space, numbers, an escape and the members
`Title` and `title` gives `hA`, the bodies `{"title":7}`, `[1]` and a text that is not
JSON give `Invalid JSON`, and the bodies `null` and `{"title":null,...}` give the
empty string. -/
theorem GetPastes_title_extraction_witness :
    (ListingDecoded listingEnv "pk" examplePastes ∧
      ∃ Titles, GetPastes listingEnv "pk" = .PasteListFetchedMsg examplePastes Titles ∧
        Titles[0]? = some "hi") ∧
    (ListingDecoded variedEnv "pk" variedPastes ∧
      ∃ Titles, GetPastes variedEnv "pk" = .PasteListFetchedMsg variedPastes Titles ∧
        Titles[0]? = some "hA" ∧ Titles[1]? = some "Invalid JSON" ∧
        Titles[2]? = some "Invalid JSON" ∧ Titles[3]? = some "" ∧
        Titles[4]? = some "Invalid JSON" ∧ Titles[5]? = some "") := by
  have hbody : ¬ namesField "title" "body" := by decide
  have hn : ¬ namesField "title" "n" := by decide
  refine ⟨⟨listingEnv_decoded, ?_⟩, ⟨variedEnv_decoded, ?_⟩⟩
  · obtain ⟨Titles, hrun, hfield, _⟩ :=
      GetPastes_title_extraction listingEnv "pk" examplePastes 0 _
        "\x7b\"title\":\"hi\",\"body\":\"x\"\x7d" rfl listingEnv_decoded rfl rfl
    refine ⟨Titles, hrun, hfield [] "title" "hi" [("body", .str "x")] rfl (by decide) ?_ ?_⟩
    · intro m hm hname
      simp only [List.mem_singleton] at hm
      subst hm
      exact absurd hname hbody
    · intro m hm
      cases hm
  · obtain ⟨T0, hrun, hfield, _⟩ :=
      GetPastes_title_extraction variedEnv "pk" variedPastes 0 _
        "\x7b \"n\" : [1, -2.5e3, true, null], \"Title\" : \"h\\u0041\" ,\t\"title\" : null \x7d"
        rfl variedEnv_decoded rfl rfl
    obtain ⟨T1, hrun1, _, _, _, hbad, _⟩ :=
      GetPastes_title_extraction variedEnv "pk" variedPastes 1 _ "\x7b\"title\":7\x7d"
        rfl variedEnv_decoded rfl rfl
    obtain ⟨T2, hrun2, _, _, hother, _⟩ :=
      GetPastes_title_extraction variedEnv "pk" variedPastes 2 _ "[1]"
        rfl variedEnv_decoded rfl rfl
    obtain ⟨T3, hrun3, _, _, _, _, hnull, _⟩ :=
      GetPastes_title_extraction variedEnv "pk" variedPastes 3 _ "null"
        rfl variedEnv_decoded rfl rfl
    obtain ⟨T4, hrun4, _, hsyntax, _⟩ :=
      GetPastes_title_extraction variedEnv "pk" variedPastes 4 _
        "\x7b\"title\":\"x\" \"y\"\x7d" rfl variedEnv_decoded rfl rfl
    obtain ⟨T5, hrun5, _, _, _, _, _, hempty, _⟩ :=
      GetPastes_title_extraction variedEnv "pk" variedPastes 5 _
        "\x7b\"title\":null,\"body\":\"\\ud83d\\ude00\"\x7d" rfl variedEnv_decoded rfl rfl
    have e1 := titles_unique (hrun.symm.trans hrun1)
    have e2 := titles_unique (hrun.symm.trans hrun2)
    have e3 := titles_unique (hrun.symm.trans hrun3)
    have e4 := titles_unique (hrun.symm.trans hrun4)
    have e5 := titles_unique (hrun.symm.trans hrun5)
    subst e1 e2 e3 e4 e5
    refine ⟨T0, hrun, ?_, ?_, ?_, ?_, ?_, ?_⟩
    · refine hfield [("n", .arr [.num "1", .num "-2.5e3", .bool true, .null])] "Title" "hA"
        [("title", .null)] rfl (by decide) ?_ ?_
      · intro m hm _
        simp only [List.mem_singleton] at hm
        subst hm
        rfl
      · intro m hm hname
        simp only [List.mem_singleton] at hm
        subst hm
        exact absurd hname hn
    · refine hbad [("title", .num "7")] ("title", .num "7") rfl (List.mem_singleton.2 rfl)
        (by decide) ?_ ?_
      · intro hv
        cases hv
      · intro s hv
        cases hv
    · refine hother (.arr [.num "1"]) rfl ?_ ?_
      · intro hv
        cases hv
      · intro members hv
        cases hv
    · exact hnull rfl
    · exact hsyntax rfl
    · refine hempty [("title", .null), ("body", .str (String.mk [Char.ofNat 128512]))] rfl ?_
      intro m hm hname
      simp only [List.mem_cons, List.mem_singleton, List.not_mem_nil, or_false] at hm
      rcases hm with rfl | rfl
      · rfl
      · exact absurd hname hbody

/-! ## Error texts -/

theorem Contains_status (a b c d : String) : Contains (a ++ b ++ c ++ d) b :=
  ⟨a.data, (c ++ d).data, by simp [String.data_append]⟩

theorem Contains_body (a b : String) : Contains (a ++ b) b :=
  ⟨a.data, [], by simp [String.data_append]⟩

/-! ## `GetPaste` -/

/-- C4: when the request of `GetPaste id` was sent and answered with a status
`s ≠ 200`, the result is an error event, never a `PasteFetchedMsg`, and its text is
fixed by `s`: `invalid paste ID` for 400, `Paste not found` for 404,
`Paste has expired` for 410, `Internal server error` for every other status; the four
texts are pairwise distinct. -/
theorem GetPaste_status_errors (env : Env) (id : String) (req : Request) (s : Nat)
    (Body : String)
    (hreq : env.NewRequest "GET" (backendURL ++ "/api/pastes/" ++ id) none = .ok req)
    (hdo : env.Do req = .response s Body) (hs : s ≠ 200) :
    (∃ text, GetPaste env id = .ErrMsg text) ∧
    (∀ paste, GetPaste env id ≠ .PasteFetchedMsg paste) ∧
    (s = 400 → GetPaste env id = .ErrMsg "invalid paste ID") ∧
    (s = 404 → GetPaste env id = .ErrMsg "Paste not found") ∧
    (s = 410 → GetPaste env id = .ErrMsg "Paste has expired") ∧
    (s ≠ 400 → s ≠ 404 → s ≠ 410 → GetPaste env id = .ErrMsg "Internal server error") ∧
    List.Pairwise (fun a b : String => a ≠ b)
      ["invalid paste ID", "Paste not found", "Paste has expired", "Internal server error"] := by
  have hrun : GetPaste env id =
      if s = 400 then .ErrMsg "invalid paste ID"
      else if s = 404 then .ErrMsg "Paste not found"
      else if s = 410 then .ErrMsg "Paste has expired"
      else .ErrMsg "Internal server error" := by
    simp [GetPaste, hreq, hdo, hs]
  refine ⟨?_, ?_, ?_, ?_, ?_, ?_, by decide⟩
  · rw [hrun]
    split_ifs <;> exact ⟨_, rfl⟩
  · intro paste
    rw [hrun]
    split_ifs <;> simp
  · intro h
    rw [hrun, if_pos h]
  · intro h
    subst h
    rw [hrun]
    simp
  · intro h
    subst h
    rw [hrun]
    simp
  · intro h1 h2 h3
    rw [hrun]
    simp [h1, h2, h3]

/-- Witness for C4: `GetPaste "nonexistent"` answered with 404 gives the error
`Paste not found`. -/
theorem GetPaste_status_errors_witness :
    notFoundEnv.Do
        { Method := "GET", URL := backendURL ++ "/api/pastes/" ++ "nonexistent",
          Body := none, Header := [] }
      = .response 404 "paste not found" ∧
    404 ≠ 200 ∧ GetPaste notFoundEnv "nonexistent" = .ErrMsg "Paste not found" ∧
    ∀ paste, GetPaste notFoundEnv "nonexistent" ≠ .PasteFetchedMsg paste :=
  have h := GetPaste_status_errors notFoundEnv "nonexistent" _ 404 "paste not found"
    rfl rfl (by decide)
  ⟨rfl, by decide, h.2.2.2.1 rfl, h.2.1⟩

/-! ## `CreatePaste` -/

/-- C5: `CreatePaste` returns a `PasteCreatedMsg` exactly when the request body was
encoded, the request was built and sent, the status is 201 and the response body
decodes; the message then carries the `tempID` argument and the decoded response. In
every other case the result is an `ErrMsg`, and it is the same `ErrMsg` whatever the
`tempID` argument is. -/
theorem CreatePaste_created_iff (env : Env) (reqBody : PasteRequest)
    (token tempID : String) :
    (∀ m, CreatePaste env reqBody token tempID = .PasteCreatedMsg m ↔
      m.TempID = tempID ∧
      ∃ jsonBody req Body,
        env.marshalPasteRequest reqBody = .ok jsonBody ∧
        env.NewRequest "POST" (backendURL ++ "/api/pastes") (some jsonBody) = .ok req ∧
        env.Do ((req.setHeader "Authorization" ("Bearer " ++ token)).setHeader
          "Content-Type" "application/json") = .response 201 Body ∧
        env.decodeCreatePasteResponse Body = .ok m.CreatePasteResponse) ∧
    ((∀ m, CreatePaste env reqBody token tempID ≠ .PasteCreatedMsg m) →
      ∃ text, CreatePaste env reqBody token tempID = .ErrMsg text ∧
        ∀ tempID', CreatePaste env reqBody token tempID' = .ErrMsg text) := by
  cases hm : env.marshalPasteRequest reqBody with
  | error e => simp [CreatePaste, hm]
  | ok jsonBody =>
    cases hn : env.NewRequest "POST" (backendURL ++ "/api/pastes") (some jsonBody) with
    | error e => simp [CreatePaste, hm, hn]
    | ok req =>
      cases hdo : env.Do ((req.setHeader "Authorization" ("Bearer " ++ token)).setHeader
          "Content-Type" "application/json") with
      | failed e => simp [CreatePaste, hm, hn, hdo]
      | response s Body =>
        by_cases hs : s = 201
        · subst hs
          cases hdec : env.decodeCreatePasteResponse Body with
          | error e => simp [CreatePaste, hm, hn, hdo, hdec]
          | ok r =>
            refine ⟨?_, ?_⟩
            · intro m
              cases m with
              | mk t c =>
                simp only [CreatePaste, hm, hn, hdo, hdec]
                simp
                constructor
                · rintro ⟨h1, h2⟩
                  exact ⟨h1.symm, req, hn, Body, hdo, by rw [hdec, h2]⟩
                · rintro ⟨h1, req', hn', Body', hdo', hdec'⟩
                  rw [hn] at hn'
                  injection hn' with hn'
                  subst hn'
                  rw [hdo] at hdo'
                  injection hdo' with _ hb
                  subst hb
                  rw [hdec] at hdec'
                  injection hdec' with hdec'
                  exact ⟨h1.symm, hdec'⟩
            · intro h
              exact absurd (by simp [CreatePaste, hm, hn, hdo, hdec]) (h ⟨tempID, r⟩)
        · simp [CreatePaste, hm, hn, hdo, hs]

/-- Witness for C5: answered with 201 and `{"id":"p1"}`, `CreatePaste` returns the
`PasteCreatedMsg` with the caller's `tempID`; answered with 409, it returns the same
error event for two different `tempID` arguments. -/
theorem CreatePaste_created_iff_witness :
    CreatePaste createdEnv { Ciphertext := "c" } "tok" "tmp-1"
      = .PasteCreatedMsg { TempID := "tmp-1", CreatePasteResponse := { ID := "p1" } } ∧
    ∃ text, CreatePaste conflictEnv { Ciphertext := "c" } "tok" "tmp-1" = .ErrMsg text ∧
      CreatePaste conflictEnv { Ciphertext := "c" } "tok" "tmp-2" = .ErrMsg text := by
  refine ⟨?_, ?_⟩
  · exact ((CreatePaste_created_iff createdEnv { Ciphertext := "c" } "tok" "tmp-1").1
      { TempID := "tmp-1", CreatePasteResponse := { ID := "p1" } }).2
      ⟨rfl, _, _, _, rfl, rfl, rfl, rfl⟩
  · obtain ⟨text, h1, h2⟩ :=
      (CreatePaste_created_iff conflictEnv { Ciphertext := "c" } "tok" "tmp-1").2
        (by
          intro m
          have hrun : CreatePaste conflictEnv { Ciphertext := "c" } "tok" "tmp-1"
              = .ErrMsg ("create paste request failed with status 409: "
                  ++ "public key already registered") := by decide
          rw [hrun]
          simp)
    exact ⟨text, h1, h2 "tmp-2"⟩

/-! ## `AuthenticateUser` and `RegisterUser` -/

/-- C6: when the authentication submission is answered with a status `s ≠ 200`,
`AuthenticateUser` returns an error event whose text contains the status code and the
response body, and no `AuthResponse`; and whenever `AuthenticateUser` returns an
`AuthResponse`, the status was 200 and the body decoded to it. -/
theorem AuthenticateUser_rejected (env : Env) (reqBody : AuthRequest) :
    (∀ jsonBody s Body, env.marshalAuthRequest reqBody = .ok jsonBody →
      env.Post (backendURL ++ "/api/users/auth") "application/json" jsonBody
        = .response s Body →
      s ≠ 200 →
      (∃ text, AuthenticateUser env reqBody = .ErrMsg text ∧
        Contains text (toString s) ∧ Contains text Body) ∧
      ∀ r, AuthenticateUser env reqBody ≠ .AuthResponse r) ∧
    (∀ r, AuthenticateUser env reqBody = .AuthResponse r →
      ∃ jsonBody Body, env.marshalAuthRequest reqBody = .ok jsonBody ∧
        env.Post (backendURL ++ "/api/users/auth") "application/json" jsonBody
          = .response 200 Body ∧
        env.decodeAuthResponse Body = .ok r) := by
  refine ⟨?_, ?_⟩
  · intro jsonBody s Body hm hp hs
    have hrun : AuthenticateUser env reqBody
        = .ErrMsg ("auth request failed with status " ++ toString s ++ ": " ++ Body) := by
      simp [AuthenticateUser, hm, hp, hs]
    refine ⟨⟨_, hrun, Contains_status _ _ _ _, Contains_body _ _⟩, ?_⟩
    intro r
    rw [hrun]
    simp
  · intro r
    cases hm : env.marshalAuthRequest reqBody with
    | error e => simp [AuthenticateUser, hm]
    | ok jsonBody =>
      cases hp : env.Post (backendURL ++ "/api/users/auth") "application/json" jsonBody with
      | failed e => simp [AuthenticateUser, hm, hp]
      | response s Body =>
        by_cases hs : s = 200
        · subst hs
          cases hdec : env.decodeAuthResponse Body with
          | error e => simp [AuthenticateUser, hm, hp, hdec]
          | ok r' =>
            simp only [AuthenticateUser, hm, hp, hdec]
            simp
            intro hr
            exact ⟨Body, hp, by rw [hdec, hr]⟩
        · simp [AuthenticateUser, hm, hp, hs]

/-- Witness for C6: a submission answered with 401 and the body `signature rejected`
gives an error event naming both, and no `AuthResponse`. -/
theorem AuthenticateUser_rejected_witness :
    AuthenticateUser rejectedEnv { ID := "u1", SignedChallenge := "sig" }
      = .ErrMsg "auth request failed with status 401: signature rejected" ∧
    (∃ text, AuthenticateUser rejectedEnv { ID := "u1", SignedChallenge := "sig" }
        = .ErrMsg text ∧ Contains text "401" ∧ Contains text "signature rejected") ∧
    ∀ r, AuthenticateUser rejectedEnv { ID := "u1", SignedChallenge := "sig" }
      ≠ .AuthResponse r :=
  have h := (AuthenticateUser_rejected rejectedEnv { ID := "u1", SignedChallenge := "sig" }).1
    _ 401 "signature rejected" rfl rfl (by decide)
  ⟨by decide, h.1, h.2⟩

/-- C7: when the registration request is answered with 409, or with any other status
`s ≠ 201`, `RegisterUser` returns an error event whose text contains the status code
and the response body, and no `RegisterUserResponse`; and whenever `RegisterUser`
returns a `RegisterUserResponse`, the status was 201 and the body decoded to it. -/
theorem RegisterUser_conflict (env : Env) (pubKeyB64 : String) :
    (∀ jsonBody s Body,
      env.marshalRegisterUserRequest { PublicKey := pubKeyB64 } = .ok jsonBody →
      env.Post (backendURL ++ "/api/users") "application/json" jsonBody
        = .response s Body →
      s ≠ 201 →
      (∃ text, RegisterUser env pubKeyB64 = .ErrMsg text ∧
        Contains text (toString s) ∧ Contains text Body) ∧
      ∀ r, RegisterUser env pubKeyB64 ≠ .RegisterUserResponse r) ∧
    (∀ r, RegisterUser env pubKeyB64 = .RegisterUserResponse r →
      ∃ jsonBody Body,
        env.marshalRegisterUserRequest { PublicKey := pubKeyB64 } = .ok jsonBody ∧
        env.Post (backendURL ++ "/api/users") "application/json" jsonBody
          = .response 201 Body ∧
        env.decodeRegisterUserResponse Body = .ok r) := by
  refine ⟨?_, ?_⟩
  · intro jsonBody s Body hm hp hs
    have hrun : RegisterUser env pubKeyB64
        = .ErrMsg ("register user request failed with status " ++ toString s ++ ": "
            ++ Body) := by
      simp [RegisterUser, hm, hp, hs]
    refine ⟨⟨_, hrun, Contains_status _ _ _ _, Contains_body _ _⟩, ?_⟩
    intro r
    rw [hrun]
    simp
  · intro r
    cases hm : env.marshalRegisterUserRequest { PublicKey := pubKeyB64 } with
    | error e => simp [RegisterUser, hm]
    | ok jsonBody =>
      cases hp : env.Post (backendURL ++ "/api/users") "application/json" jsonBody with
      | failed e => simp [RegisterUser, hm, hp]
      | response s Body =>
        by_cases hs : s = 201
        · subst hs
          cases hdec : env.decodeRegisterUserResponse Body with
          | error e => simp [RegisterUser, hm, hp, hdec]
          | ok r' =>
            simp only [RegisterUser, hm, hp, hdec]
            simp
            intro hr
            exact ⟨Body, hp, by rw [hdec, hr]⟩
        · simp [RegisterUser, hm, hp, hs]

/-- Witness for C7: a registration answered with 409 and the body
`public key already registered` gives an error event naming both, and no
`RegisterUserResponse`. -/
theorem RegisterUser_conflict_witness :
    RegisterUser conflictEnv "cHVibGljLWtleQ=="
      = .ErrMsg "register user request failed with status 409: public key already registered" ∧
    (∃ text, RegisterUser conflictEnv "cHVibGljLWtleQ==" = .ErrMsg text ∧
      Contains text "409" ∧ Contains text "public key already registered") ∧
    ∀ r, RegisterUser conflictEnv "cHVibGljLWtleQ==" ≠ .RegisterUserResponse r :=
  have h := (RegisterUser_conflict conflictEnv "cHVibGljLWtleQ==").1
    _ 409 "public key already registered" rfl rfl (by decide)
  ⟨by decide, h.1, h.2⟩

/-! ## Transport failures -/

/-- C8 at a failing input: when every HTTP send fails with the error
`dial tcp 127.0.0.1:8081: connect: connection refused`, the error events of
`RegisterUser`, `AuthenticateUser` and `CreatePaste` do not contain that text, while
those of `GetPastes` and `GetPaste` do. -/
theorem transport_error_text_dropped :
    RegisterUser offlineEnv "cHVibGljLWtleQ=="
      = .ErrMsg "failed to make register User request" ∧
    ¬ Contains "failed to make register User request" refused ∧
    AuthenticateUser offlineEnv { ID := "u1", SignedChallenge := "sig" }
      = .ErrMsg "failed to authenticate user userID : u1" ∧
    ¬ Contains "failed to authenticate user userID : u1" refused ∧
    CreatePaste offlineEnv { Ciphertext := "c" } "tok" "tmp-1"
      = .ErrMsg "failed to make create paste request" ∧
    ¬ Contains "failed to make create paste request" refused ∧
    GetPastes offlineEnv "pk" = .ErrMsg ("failed to make request: " ++ refused) ∧
    GetPaste offlineEnv "p1" = .ErrMsg ("failed to make request: " ++ refused) ∧
    Contains ("failed to make request: " ++ refused) refused := by
  refine ⟨by decide, by decide, by decide, by decide, by decide, by decide, by decide,
    by decide, Contains_body _ _⟩

/-! ## `RegisterModel.Update` -/

/-- C9 at a failing input: the freshly built model, whose `user.ID` is empty,
receives `RegisterUserResponse{ID: "u1"}`. It moves to state `done` and returns a
command yielding `RegistrationSuccessMsg{ID: "u1"}`, but the status message is
`Registration successful. User ID: ` followed by the model's own `user.ID`, not by
`u1`, and that is what `View` shows. -/
theorem Update_RegisterUserResponse_status :
    ∃ m', (NewRegisterModel simpleBubbles).Update simpleBubbles
        (.RegisterUserResponse { ID := "u1" })
        = some (m', .func (some (.RegistrationSuccessMsg "u1"))) ∧
      m'.CurrentState = .done ∧
      m'.statusMessage = "Registration successful. User ID: " ∧
      m'.statusMessage ≠ "Registration successful. User ID: u1" ∧
      m'.View simpleBubbles = "Registration successful. User ID: \n\nPress Ctrl+C to quit" :=
  ⟨_, rfl, rfl, by decide, by decide, by decide⟩

/-- C10 at a failing input: at the prompt for the key-file path, with `/home/`
typed, the key presses `j`, `k`, `down` and `up` return through the cursor cases:
the command is `nil`, the list cursor moves, the state stays `enterKeyFile` and the
text input still holds `/home/`, whereas `Inputs.Update` on `j` would have given
`/home/j`; the key press `a` is forwarded and gives `/home/a`. -/
theorem Update_enterKeyFile_cursor_keys :
    (∃ m', (atKeyFilePrompt "/home/").Update simpleBubbles (.KeyMsg "j") = some (m', .nil) ∧
      m'.Inputs = (atKeyFilePrompt "/home/").Inputs ∧ m'.Inputs.value = "/home/" ∧
      m'.List.cursor = 1 ∧ m'.CurrentState = .enterKeyFile) ∧
    (∃ m', (atKeyFilePrompt "/home/").Update simpleBubbles (.KeyMsg "k") = some (m', .nil) ∧
      m'.Inputs.value = "/home/" ∧ m'.CurrentState = .enterKeyFile) ∧
    (∃ m', (atKeyFilePrompt "/home/").Update simpleBubbles (.KeyMsg "down")
        = some (m', .nil) ∧
      m'.Inputs.value = "/home/" ∧ m'.CurrentState = .enterKeyFile) ∧
    (∃ m', (atKeyFilePrompt "/home/").Update simpleBubbles (.KeyMsg "up") = some (m', .nil) ∧
      m'.Inputs.value = "/home/" ∧ m'.CurrentState = .enterKeyFile) ∧
    (simpleBubbles.InputsUpdate (atKeyFilePrompt "/home/").Inputs (.KeyMsg "j")).1.value
      = "/home/j" ∧
    (∃ m', (atKeyFilePrompt "/home/").Update simpleBubbles (.KeyMsg "a")
        = some (m', .Batch [.nil, .nil]) ∧
      m'.Inputs.value = "/home/a") :=
  ⟨⟨_, rfl, rfl, by decide, by decide, by decide⟩, ⟨_, rfl, by decide, by decide⟩,
    ⟨_, rfl, by decide, by decide⟩, ⟨_, rfl, by decide, by decide⟩, by decide,
    ⟨_, rfl, by decide⟩⟩

end KeyDrop
